import Mathlib

/-!
# Verification of the Wavelink client library

Shallow embedding of the parts of the `wavelink` package relevant to the
verified properties: the `Queue` container (`wavelink/queue.py`), the
`Backoff` delay generator (`wavelink/backoff.py`), the websocket "ready"
handshake transition (`wavelink/websocket.py`), the `Player.play` staging
and rollback logic together with the recommendation seed selection
(`wavelink/player.py`), and the track-resolution cache policy of
`Pool.fetch_tracks` (`wavelink/node.py`).

Python objects are embedded as plain Lean data; methods that mutate `self`
become functions from the old state to the new state; methods that can
raise become `Except`-valued functions (an `Except.error` result leaves the
caller holding the unchanged prior state, which matches the source because
every modelled raise happens before any mutation, or the post-raise state
is returned explicitly where the source mutates before raising).
-/

namespace Wavelink

/-- Embeds `wavelink.tracks.Playable` (tracks.py).  Only the fields the
verified operations inspect are carried: `encoded` and `identifier` (used
by `Playable.__eq__`), `source` (used by the recommendation engine) and
`isStream` (`info["isStream"]`, used by the `Pool.fetch_tracks` cache
policy). -/
structure Playable where
  encoded : String
  identifier : String
  source : String
  isStream : Bool
deriving Repr, DecidableEq

/-- `Playable.__eq__` (tracks.py): two tracks are equal when the encoded
strings match *or* the identifiers match. -/
def Playable.pyEq (a b : Playable) : Bool :=
  a.encoded == b.encoded || a.identifier == b.identifier

/-- `wavelink.enums.QueueMode` (enums.py): `normal = 0`, `loop = 1`,
`loop_all = 2`. -/
inductive QueueMode where
  | normal
  | loop
  | loop_all
deriving Repr, DecidableEq

/-- Errors raised by the embedded queue operations: `QueueEmpty`
(exceptions.py), Python `TypeError` (raised by `Queue._check_compatibility`)
and a failing `assert` statement. -/
inductive QueueError where
  | queueEmpty
  | typeError
  | assertionError
deriving Repr, DecidableEq

/-- Embeds `wavelink.queue.Queue` (queue.py).  `items` is `self._items`;
`mode` is `self._mode`; `loaded` is `self._loaded`.  The history queue is
itself a `Queue(history=False)` whose own mode/loaded/history fields are
never touched by any verified operation, so `history` carries just its
`_items` list (`None` when the queue was built with `history=False`).
The asyncio waiter deque and lock are concurrency plumbing with no effect
on the verified state and are not carried. -/
structure Queue where
  items : List Playable
  history : Option (List Playable)
  mode : QueueMode
  loaded : Option Playable
deriving Repr, DecidableEq

/-- `Queue.get` (queue.py).  In `loop` mode with a loaded track (`Playable`
instances are always truthy) the loaded track is returned and nothing is
mutated.  In `loop_all` mode with empty `items`, `items` is refilled from
`history._items` and the history is cleared (after an
`assert self.history is not None`).  Then an empty queue raises
`QueueEmpty`; otherwise index 0 is popped and stored in `_loaded`. -/
def Queue.get (q : Queue) : Except QueueError (Playable × Queue) :=
  if h : q.mode = QueueMode.loop ∧ q.loaded.isSome then
    Except.ok (q.loaded.get h.2, q)
  else if q.mode = QueueMode.loop_all ∧ q.items.isEmpty then
    match q.history with
    | none => Except.error QueueError.assertionError
    | some hist =>
      match q.items ++ hist with
      | [] => Except.error QueueError.queueEmpty
      | t :: rest =>
          Except.ok (t, { q with items := rest, history := some [], loaded := some t })
  else
    match q.items with
    | [] => Except.error QueueError.queueEmpty
    | t :: rest => Except.ok (t, { q with items := rest, loaded := some t })

/-- An element handed to `Queue.put`: either a `Playable` or some other
Python object (which `Queue._check_compatibility` rejects with
`TypeError`). -/
inductive QItem where
  | track (t : Playable)
  | invalid
deriving Repr, DecidableEq

/-- `Queue._check_compatibility` (queue.py): `TypeError` unless the object
is a `Playable`. -/
def checkCompatibility : QItem → Except QueueError Unit
  | QItem.track _ => Except.ok ()
  | QItem.invalid => Except.error QueueError.typeError

/-- `Queue._check_atomic` (queue.py): run `_check_compatibility` on every
element, stopping at the first failure. -/
def checkAtomic : List QItem → Except QueueError Unit
  | [] => Except.ok ()
  | x :: xs =>
      match checkCompatibility x with
      | Except.error e => Except.error e
      | Except.ok _ => checkAtomic xs

/-- The elements of a collection that pass `_check_compatibility`
(the `passing_items` comprehension of `Queue.put` with `atomic=False`). -/
def passingItems (l : List QItem) : List Playable :=
  l.filterMap fun x => match x with
    | QItem.track t => some t
    | QItem.invalid => none

/-- The argument of `Queue.put`: a single object (a `Playable` or an
incompatible non-iterable object), or an iterable of objects (a `list` or a
`Playlist` both take the `isinstance(item, Iterable)` branch). -/
inductive PutItem where
  | single (t : Playable)
  | singleInvalid
  | collection (l : List QItem)
deriving Repr, DecidableEq

/-- `Queue.put` (queue.py).  For an iterable with `atomic=True`,
`_check_atomic` runs before any element is appended, so a `TypeError`
leaves `_items` untouched; on success the whole collection is appended and
its length returned.  With `atomic=False` only the passing elements are
appended, and their count returned.  A single item is checked then
appended.  `_wakeup_next` only signals waiters and is not modelled. -/
def Queue.put (q : Queue) (item : PutItem) (atomic : Bool) :
    Except QueueError (Nat × Queue) :=
  match item with
  | PutItem.collection l =>
      if atomic then
        match checkAtomic l with
        | Except.error e => Except.error e
        | Except.ok _ =>
            Except.ok (l.length, { q with items := q.items ++ passingItems l })
      else
        Except.ok ((passingItems l).length, { q with items := q.items ++ passingItems l })
  | PutItem.single t =>
      Except.ok (1, { q with items := q.items ++ [t] })
  | PutItem.singleInvalid =>
      Except.error QueueError.typeError

/-- Python `list.remove(x)` (used by `Queue.remove`): drop the first
element equal to `x` under `Playable.__eq__`.  The source only calls it
with an element known to be present, so the empty case is unreachable
there. -/
def pyListRemove (l : List Playable) (x : Playable) : List Playable :=
  match l with
  | [] => []
  | y :: ys => if y.pyEq x then ys else y :: pyListRemove ys x

/-- The loop body of `Queue.remove` (queue.py): iterate over a copy of
`_items`; on each element equal to `item` remove its first `==`-match from
the live list and bump `deleted_count`; break once
`count is not None and deleted_count >= count`.  `count` is an `int` or
`None`, so it is embedded as `Option Int`. -/
def removeLoop (copy : List Playable) (items : List Playable) (item : Playable)
    (count : Option Int) (deleted : Nat) : List Playable × Nat :=
  match copy with
  | [] => (items, deleted)
  | t :: rest =>
      if t.pyEq item then
        let items' := pyListRemove items t
        let deleted' := deleted + 1
        match count with
        | some c =>
            if (deleted' : Int) ≥ c then (items', deleted')
            else removeLoop rest items' item count deleted'
        | none => removeLoop rest items' item count deleted'
      else
        removeLoop rest items item count deleted

/-- `Queue.remove` (queue.py): returns the updated queue and the number of
removed occurrences. -/
def Queue.remove (q : Queue) (item : Playable) (count : Option Int) :
    Queue × Nat :=
  let r := removeLoop q.items q.items item count 0
  ({ q with items := r.1 }, r.2)

/-- `Queue.history.put(track)` as performed by `Player.play` with
`add_history=True` (player.py): `play` first asserts
`self.queue.history is not None`, then appends the track to the history
queue's `_items`. -/
def Queue.historyPut (q : Queue) (t : Playable) : Except QueueError Queue :=
  match q.history with
  | none => Except.error QueueError.assertionError
  | some h => Except.ok { q with history := some (h ++ [t]) }

/-- One `get()` / history-append cycle as driven by the player's autoplay
continuation (`Player._do_partial` → `Queue.get` → `Player.play` with
`add_history=True` → `Queue.history.put`). -/
def Queue.cycle (q : Queue) : Except QueueError Queue :=
  match q.get with
  | Except.error e => Except.error e
  | Except.ok (t, q') => q'.historyPut t

/-- `n` consecutive `get()`/history-append cycles. -/
def Queue.cycles : Nat → Queue → Except QueueError Queue
  | 0, q => Except.ok q
  | n + 1, q =>
      match q.cycle with
      | Except.error e => Except.error e
      | Except.ok q₁ => Queue.cycles n q₁

/-- The tracks held by the history queue (empty when there is none). -/
def Queue.histList (q : Queue) : List Playable :=
  q.history.getD []

/-- Embeds `wavelink.backoff.Backoff` (backoff.py).  `base` is an `int`
and `maximum_time` a `float` in the source; both are embedded in `ℚ` so
the arithmetic of `calculate` is exact.  `maximumTries` is
`int | None`.  `retries` (`self._retries`) starts at 1 and `lastWait`
(`self._last_wait`) at 0.  The seeded `random.Random().uniform` bound to
`self._rand` carries no other state. -/
structure Backoff where
  base : ℚ
  maximumTime : ℚ
  maximumTries : Option Nat
  retries : Nat
  lastWait : ℚ
deriving Repr, DecidableEq

/-- `Backoff.__init__`: attempt counter 1, last wait 0. -/
def Backoff.fresh (base maximumTime : ℚ) (maximumTries : Option Nat) : Backoff :=
  { base := base, maximumTime := maximumTime, maximumTries := maximumTries,
    retries := 1, lastWait := 0 }

/-- `exponent = min((self._retries**2), self._maximum_time)` in
`Backoff.calculate`. -/
def Backoff.exponent (b : Backoff) : ℚ :=
  min ((b.retries : ℚ) ^ 2) b.maximumTime

/-- Lines 51–53 of backoff.py:
`if self._maximum_tries and self._retries >= self._maximum_tries:` reset
the attempt counter and last wait.  A `None` or `0` value of
`maximum_tries` is falsy and skips the reset. -/
def Backoff.applyMaxTries (b : Backoff) : Backoff :=
  match b.maximumTries with
  | none => b
  | some m => if m ≠ 0 ∧ m ≤ b.retries then { b with retries := 0, lastWait := 0 } else b

/-- `Backoff.calculate` (backoff.py).  The single random draw
`self._rand(0, (self._base * 2) * exponent)` is abstracted into the
`draw` argument (its legal range is captured by `Backoff.drawsValid`);
everything after the draw is transcribed directly: force
`wait = 2 * last_wait` on a non-increasing draw, store `wait` in
`_last_wait`, clamp to `maximum_time` (resetting `_retries` and
`_last_wait`, which makes the subsequent max-tries comparison against the
zeroed counter a no-op), apply the max-tries reset, and finally increment
`_retries`.  Returns the delay together with the updated state. -/
def Backoff.calculate (b : Backoff) (draw : ℚ) : ℚ × Backoff :=
  let wait := if draw ≤ b.lastWait then b.lastWait * 2 else draw
  if wait > b.maximumTime then
    let st := Backoff.applyMaxTries { b with retries := 0, lastWait := 0 }
    (b.maximumTime, { st with retries := st.retries + 1 })
  else
    let st := Backoff.applyMaxTries { b with lastWait := wait }
    (wait, { st with retries := st.retries + 1 })

/-- The trace of a sequence of `calculate` calls: for each call, the
attempt counter at that call, the returned delay, and whether the call
left the backoff episode open (no clamp/max-tries reset, i.e. the attempt
counter simply advanced). -/
def Backoff.run : Backoff → List ℚ → List (Nat × ℚ × Bool)
  | _, [] => []
  | b, d :: ds =>
      let r := b.calculate d
      (b.retries, r.1, r.2.retries == b.retries + 1) :: Backoff.run r.2 ds

/-- Each draw lies in the range handed to `random.uniform` at that call:
`[0, (base * 2) * exponent]`. -/
def Backoff.drawsValid : Backoff → List ℚ → Prop
  | _, [] => True
  | b, d :: ds =>
      (0 ≤ d ∧ d ≤ (b.base * 2) * b.exponent) ∧ Backoff.drawsValid (b.calculate d).2 ds

/-- State invariant maintained by `calculate` (and established by
`__init__` whenever `maximum_time` is non-negative): the stored last wait
is between 0 and the ceiling, and the attempt counter is at least 1. -/
def Backoff.Inv (b : Backoff) : Prop :=
  0 ≤ b.lastWait ∧ b.lastWait ≤ b.maximumTime ∧ 1 ≤ b.retries

/-- Embeds `wavelink.filters.Filters` as far as `Player.play` is
concerned: `play` never inspects the filter content — it serialises the
stored instance into the request payload and, when the `filters` argument
is given, replaces the stored instance.  Only the identity of the stored
instance is therefore tracked. -/
structure Filters where
  tag : Nat
deriving Repr, DecidableEq

/-- The local player state staged and/or rolled back by `Player.play`
(player.py): `_current`, `_original`, `_previous`, `_volume`, `_paused`,
`_filters`, and the attached `queue` (whose `_loaded` slot and history the
method writes). -/
structure PlayerState where
  current : Option Playable
  original : Option Playable
  previous : Option Playable
  volume : Int
  paused : Bool
  filters : Filters
  queue : Queue
deriving Repr, DecidableEq

/-- The keyword arguments of `Player.play` that touch local state.
`start`/`end` only enter the request payload; `populate`/`max_populate`
trigger `_do_recommendation` after a successful update (modelled
separately below) and touch no staged field. -/
structure PlayArgs where
  track : Playable
  replace : Bool
  volume : Option Int
  paused : Option Bool
  addHistory : Bool
  filters : Option Filters
deriving Repr, DecidableEq

/-- Errors surfaced by the embedded `Player.play`: a `LavalinkException`
raised by `Node._update_player` (carrying the HTTP status), or a failing
`assert` statement. -/
inductive PlayError where
  | lavalink (status : Int)
  | assertionError
deriving Repr, DecidableEq

/-- `Player.play` (player.py, lines 939–988).  The remote call
`self.node._update_player(...)` is abstracted by `updateError`: `none`
means the request succeeded, `some status` means it raised
`LavalinkException`.  Staging before the call: `vol = volume or
self._volume` (Python truthiness: an explicit `0` is falsy and keeps the
old volume), `_volume` updated when different, `_current`/`_original` set
when `replace` or nothing is playing, `old_previous` saved then
`_previous = self._current`, `queue._loaded = track`, and `_filters`
replaced when a `filters` argument was given.  On `LavalinkException` the
except-branch sets `queue._loaded = old_previous`, `_current = None`,
`_original = None`, `_previous = old_previous`, `_volume = original_vol`
and re-raises.  On success `_paused` is committed and, when
`add_history`, the track is appended to the queue history (after an
assert that the history exists). -/
def Player.play (p : PlayerState) (a : PlayArgs) (updateError : Option Int) :
    Except PlayError Playable × PlayerState :=
  let originalVol := p.volume
  let vol := match a.volume with
    | none => p.volume
    | some v => if v = 0 then p.volume else v
  let p1 := if vol ≠ p.volume then { p with volume := vol } else p
  let p2 :=
    if a.replace ∨ p1.current = none then
      { p1 with current := some a.track, original := some a.track }
    else p1
  let oldPrevious := p2.previous
  let p3 := { p2 with previous := p2.current,
                      queue := { p2.queue with loaded := some a.track } }
  let pause := match a.paused with
    | some v => v
    | none => p3.paused
  let p4 := match a.filters with
    | some f => { p3 with filters := f }
    | none => p3
  match updateError with
  | some status =>
      (Except.error (PlayError.lavalink status),
        { p4 with
            queue := { p4.queue with loaded := oldPrevious },
            current := none,
            original := none,
            previous := oldPrevious,
            volume := originalVol })
  | none =>
      let p5 := { p4 with paused := pause }
      if a.addHistory then
        match p5.queue.historyPut a.track with
        | Except.error _ => (Except.error PlayError.assertionError, p5)
        | Except.ok qq => (Except.ok a.track, { p5 with queue := qq })
      else
        (Except.ok a.track, p5)

/-- The player state read by the seed-selection part of
`Player._do_recommendation` (player.py, lines 312–362):
`self.queue.history._items`, `self.auto_queue._items`, `self._current`,
`self._previous`, the contents of the bounded seed FIFO
`self.__previous_seeds` (oldest first), `self._history_count`,
`self._auto_weight` (default 3) and the FIFO capacity
`self._previous_seeds_cutoff` (`= _auto_cutoff * _auto_weight = 60`). -/
structure RecoState where
  queueHistory : List Playable
  autoQueue : List Playable
  current : Option Playable
  previous : Option Playable
  previousSeeds : List String
  historyCount : Option Nat
  autoWeight : Nat
  seedsCutoff : Nat
deriving Repr, DecidableEq

/-- `Player._add_to_previous_seeds` (player.py, lines 1177–1181): when the
bounded `asyncio.Queue` is full (its size has reached a positive
capacity), the oldest seed is dropped before the new one is appended. -/
def addToPreviousSeeds (seeds : List String) (cutoff : Nat) (seed : String) : List String :=
  let seeds := if 0 < cutoff ∧ cutoff ≤ seeds.length then seeds.drop 1 else seeds
  seeds ++ [seed]

/-- `weighted_history = self.queue.history[::-1][: max(5, 5 * self._auto_weight)]`. -/
def RecoState.weightedHistory (r : RecoState) : List Playable :=
  r.queueHistory.reverse.take (max 5 (5 * r.autoWeight))

/-- `weighted_upcoming = self.auto_queue[: max(3, int((5 * self._auto_weight) / 3))]`
(`int` truncation of a non-negative quotient is Nat division). -/
def RecoState.weightedUpcoming (r : RecoState) : List Playable :=
  r.autoQueue.take (max 3 (5 * r.autoWeight / 3))

/-- `choices = [*weighted_history, *weighted_upcoming, self._current, self._previous]`. -/
def RecoState.choices (r : RecoState) : List (Option Playable) :=
  r.weightedHistory.map some ++ r.weightedUpcoming.map some ++ [r.current, r.previous]

/-- `seeds = [t for t in choices if t is not None and t.identifier not in _previous]`. -/
def RecoState.seeds (r : RecoState) : List Playable :=
  r.choices.filterMap fun ot =>
    match ot with
    | none => none
    | some t => if t.identifier ∈ r.previousSeeds then none else some t

/-- `changed_by = min(3, count) if self._history_count is None else count - self._history_count`
where `count = len(self.queue.history)`. -/
def RecoState.changedBy (r : RecoState) : Int :=
  match r.historyCount with
  | none => min 3 (r.queueHistory.length : Int)
  | some hc => (r.queueHistory.length : Int) - (hc : Int)

/-- The tracks visited by `for i in range(min(changed_by, 3)):
track = changed_history[i]` with `changed_history = self.queue.history[::-1]`
(an empty range when `changed_by ≤ 0`). -/
def RecoState.reinforceInput (r : RecoState) : List Playable :=
  r.queueHistory.reverse.take (min r.changedBy 3).toNat

/-- Errors of the embedded seed selection: `youtube[0] = ...` raises
`IndexError` when the youtube partition is empty. -/
inductive RecoError where
  | indexError
deriving Repr, DecidableEq

/-- The reinforcement loop of `_do_recommendation` (player.py, lines
338–350): walk the 1–3 most recent history entries; stop once two spotify
identifiers were inserted and another spotify entry appears; prepend
spotify identifiers to the spotify partition; overwrite slot 0 of the
youtube partition with a youtube identifier. -/
def reinforce : List Playable → List String → List String → Nat →
    Except RecoError (List String × List String)
  | [], spotify, youtube, _ => Except.ok (spotify, youtube)
  | t :: rest, spotify, youtube, added =>
      if added = 2 ∧ t.source = "spotify" then Except.ok (spotify, youtube)
      else if t.source = "spotify" then
        reinforce rest (t.identifier :: spotify) youtube (added + 1)
      else if t.source = "youtube" then
        match youtube with
        | [] => Except.error RecoError.indexError
        | _ :: _ => reinforce rest spotify (youtube.set 0 t.identifier) added
      else
        reinforce rest spotify youtube added

/-- The outcome of seed selection: the spotify seeds used in the
`sprec:` query (`spotify[:3]`, empty when no spotify partition), the
youtube seed used in the YTM radio query (`youtube[0]`), and the seed
FIFO after the `_add_to_previous_seeds` calls. -/
structure RecoSelection where
  spotifySeeds : List String
  ytmSeed : Option String
  newPreviousSeeds : List String
deriving Repr, DecidableEq

/-- `if populate_track: seeds.insert(0, populate_track)` (player.py,
lines 321–322): the populate track is inserted at the front of the
shuffled seed list with *no* seed-history check. -/
def seedsWithPopulate (shuffled : List Playable) : Option Playable → List Playable
  | some t => t :: shuffled
  | none => shuffled

/-- The seed-selection pipeline of `_do_recommendation` after the initial
weighted seed set was built: `random.shuffle(seeds)` is abstracted into the
`shuffled` argument (any permutation of `RecoState.seeds`), then the
optional `populate_track` is inserted at the front, the seeds are
partitioned by source into identifier lists, the recent-history
reinforcement runs, and the final spotify/youtube seeds are selected and
recorded in the bounded seed FIFO. -/
def selectSeeds (r : RecoState) (shuffled : List Playable)
    (populateTrack : Option Playable) : Except RecoError RecoSelection :=
  let seeds := seedsWithPopulate shuffled populateTrack
  let spotify := (seeds.filter fun t => t.source == "spotify").map Playable.identifier
  let youtube := (seeds.filter fun t => t.source == "youtube").map Playable.identifier
  match reinforce r.reinforceInput spotify youtube 0 with
  | Except.error e => Except.error e
  | Except.ok (spotify, youtube) =>
      let spotifySeeds := if spotify.isEmpty then [] else spotify.take 3
      let prev1 := spotifySeeds.foldl (fun acc s => addToPreviousSeeds acc r.seedsCutoff s)
        r.previousSeeds
      match youtube with
      | [] => Except.ok { spotifySeeds := spotifySeeds, ytmSeed := none,
                          newPreviousSeeds := prev1 }
      | y :: _ => Except.ok { spotifySeeds := spotifySeeds, ytmSeed := some y,
                              newPreviousSeeds := addToPreviousSeeds prev1 r.seedsCutoff y }

def trackA : Playable := { encoded := "encA", identifier := "idA", source := "youtube", isStream := false }

def trackB : Playable := { encoded := "encB", identifier := "idB", source := "youtube", isStream := false }

def trackC : Playable := { encoded := "encC", identifier := "idC", source := "spotify", isStream := false }

/-- A concrete recommendation state whose seed FIFO already holds the
identifier of the only (spotify-sourced) history track. -/
def recoSample : RecoState :=
  { queueHistory := [trackC], autoQueue := [], current := none, previous := none,
    previousSeeds := ["idC"], historyCount := none, autoWeight := 3, seedsCutoff := 60 }

/-- A concrete recommendation state with no freshly played history
(`_history_count` equals the history length, so the reinforcement loop
visits nothing) and one youtube-sourced seed candidate. -/
def recoSample2 : RecoState :=
  { queueHistory := [trackA], autoQueue := [], current := none, previous := none,
    previousSeeds := ["idB"], historyCount := some 1, autoWeight := 3, seedsCutoff := 60 }

/-- A concrete player state: a track playing, another in `previous`, the
queue's loaded slot holding the playing track. -/
def samplePlayer : PlayerState :=
  { current := some trackA, original := some trackA, previous := some trackB,
    volume := 100, paused := false, filters := { tag := 0 },
    queue := { items := [], history := some [], mode := QueueMode.normal,
               loaded := some trackA } }

/-- A concrete `play()` call: new track, `replace=True`, a staged filters
override. -/
def samplePlayArgs : PlayArgs :=
  { track := trackC, replace := true, volume := none, paused := none,
    addHistory := true, filters := some { tag := 1 } }

/-- `wavelink.enums.NodeStatus` (enums.py). -/
inductive NodeStatus where
  | disconnected
  | connecting
  | connected
deriving Repr, DecidableEq

/-- The attributes bound on a `Backoff` instance (backoff.py): the class
defines exactly the methods `__init__` and `calculate`, and `__init__`
binds the listed instance fields.  No attribute named `reset` exists
anywhere in the class. -/
def backoffAttributes : List String :=
  ["__init__", "calculate", "_base", "_maximum_time", "_maximum_tries", "_retries",
   "_rand", "_last_wait"]

/-- The node-connection state touched by the "ready" branch of
`Websocket.connect` (websocket.py): `node._session_id`, `node._status`
and the websocket's `Backoff` instance. -/
structure NodeConn where
  sessionId : Option String
  status : NodeStatus
  backoff : Backoff
deriving Repr, DecidableEq

/-- Python `AttributeError`, raised when an attribute lookup fails. -/
inductive WsError where
  | attributeError
deriving Repr, DecidableEq

/-- The "ready" branch of `Websocket.connect` (websocket.py, lines
118–121): store the issued session id, transition the node to
`CONNECTED`, then evaluate `self.backoff.reset()`.  Attribute lookup on
the `Backoff` instance consults `backoffAttributes`; as no `reset`
attribute exists, the lookup raises `AttributeError` (the already-applied
mutations stick, and `_update_node`/the ready dispatch are never
reached). -/
def handleReady (n : NodeConn) (sid : String) : Except WsError Unit × NodeConn :=
  let n := { n with sessionId := some sid, status := NodeStatus.connected }
  if "reset" ∈ backoffAttributes then
    (Except.ok (), n)
  else
    (Except.error WsError.attributeError, n)

/-- A value stored in / returned from the track-resolution path of
`Pool.fetch_tracks` (node.py): a list of `Playable` (single-track and
search results) or a `Playlist` (carrying its tracks). -/
inductive LoadResult where
  | tracks (ts : List Playable)
  | playlist (ts : List Playable)
deriving Repr, DecidableEq

/-- Python truthiness of a cached track-resolution value
(`if potential: return potential`, node.py:867): an empty list is falsy,
and `Playlist` defines `__len__` returning `len(self.tracks)`
(tracks.py), so a playlist with no tracks is falsy as well. -/
def LoadResult.truthy : LoadResult → Bool
  | LoadResult.tracks ts => !ts.isEmpty
  | LoadResult.playlist ts => !ts.isEmpty

/-- The classified `loadtracks` response consumed by `Pool.fetch_tracks`
(node.py): the `loadType` discriminant together with its `data`. -/
inductive LoadedResponse where
  | track (t : Playable)
  | search (ts : List Playable)
  | playlist (ts : List Playable)
  | empty
  | error
  | other
deriving Repr, DecidableEq

/-- `LavalinkLoadException` raised on `loadType == "error"`. -/
inductive LoadError where
  | lavalinkLoad
deriving Repr, DecidableEq

/-- The post-cache-miss part of `Pool.fetch_tracks` (node.py, lines
870–904): classify the node response by `loadType`.  The second component
of the result is the value handed to `cls.__cache.put(encoded_query, ·)`
(`none` when no put happens): a single track is cached only when the
cache is enabled and the track is not a stream; `search` and `playlist`
results are cached whenever the cache is enabled. -/
def fetchFresh (cacheEnabled : Bool) (resp : LoadedResponse) :
    Except LoadError (LoadResult × Option LoadResult) :=
  match resp with
  | LoadedResponse.track t =>
      Except.ok (LoadResult.tracks [t],
        if cacheEnabled && !t.isStream then some (LoadResult.tracks [t]) else none)
  | LoadedResponse.search ts =>
      Except.ok (LoadResult.tracks ts,
        if cacheEnabled then some (LoadResult.tracks ts) else none)
  | LoadedResponse.playlist ts =>
      Except.ok (LoadResult.playlist ts,
        if cacheEnabled then some (LoadResult.playlist ts) else none)
  | LoadedResponse.empty => Except.ok (LoadResult.tracks [], none)
  | LoadedResponse.error => Except.error LoadError.lavalinkLoad
  | LoadedResponse.other => Except.ok (LoadResult.tracks [], none)

/-- `Pool.fetch_tracks` (node.py, lines 860–904) for a single query.
`cache` abstracts `cls.__cache`: `none` when the LFU cache is disabled,
`some lookup` when enabled, with `lookup` the result of
`cls.__cache.get(encoded_query, None)`.  A truthy cached value is
returned as-is without contacting the node; otherwise the node response
`resp` is classified by `fetchFresh`. -/
def Pool.fetchTracks (cache : Option (Option LoadResult)) (resp : LoadedResponse) :
    Except LoadError (LoadResult × Option LoadResult) :=
  match cache with
  | some (some c) =>
      if c.truthy then Except.ok (c, none)
      else fetchFresh true resp
  | some none => fetchFresh true resp
  | none => fetchFresh false resp

/-- A live-stream track (`info["isStream"] = true`). -/
def streamTrack : Playable :=
  { encoded := "encL", identifier := "idL", source := "youtube", isStream := true }

/-! ## Theorems -/

theorem Queue.get_loop_loaded (q : Queue) (t : Playable)
    (hm : q.mode = QueueMode.loop) (hl : q.loaded = some t) :
    q.get = Except.ok (t, q) := by
  simp [Queue.get, hm, hl]

theorem Queue.get_not_loop_loaded (q : Queue)
    (hnl : ¬(q.mode = QueueMode.loop ∧ q.loaded.isSome))
    (hne : ¬(q.mode = QueueMode.loop_all ∧ q.items.isEmpty)) :
    q.get = match q.items with
      | [] => Except.error QueueError.queueEmpty
      | t :: rest => Except.ok (t, { q with items := rest, loaded := some t }) := by
  rw [Queue.get, dif_neg hnl, if_neg hne]

theorem Queue.get_loop_all_refill (q : Queue) (t : Playable) (ts : List Playable)
    (hm : q.mode = QueueMode.loop_all) (hh : q.history = some (t :: ts))
    (hi : q.items = []) :
    q.get = Except.ok (t, { q with items := ts, history := some [], loaded := some t }) := by
  simp [Queue.get, hm, hh, hi]

theorem Queue.get_loop_all_cons (q : Queue) (a : Playable) (rest : List Playable)
    (hm : q.mode = QueueMode.loop_all) (hi : q.items = a :: rest) :
    q.get = Except.ok (a, { q with items := rest, loaded := some a }) := by
  simp [Queue.get, hm, hi]

/-- One autoplay cycle in `loop_all` mode keeps the mode, keeps the history
present, and permutes the combined `items ++ history` contents. -/
theorem Queue.cycle_loop_all_perm (q : Queue) (h : List Playable) (q' : Queue)
    (hm : q.mode = QueueMode.loop_all) (hh : q.history = some h)
    (hc : q.cycle = Except.ok q') :
    q'.mode = QueueMode.loop_all ∧
      ∃ h', q'.history = some h' ∧ (q'.items ++ h').Perm (q.items ++ h) := by
  match hi : q.items with
  | [] =>
    match h with
    | [] =>
      rw [Queue.cycle, show q.get = Except.error QueueError.queueEmpty by
        simp [Queue.get, hm, hh, hi]] at hc
      exact absurd hc (by simp)
    | t :: ts =>
      rw [Queue.cycle, Queue.get_loop_all_refill q t ts hm hh hi] at hc
      simp only [Queue.historyPut, Except.ok.injEq] at hc
      subst hc
      refine ⟨hm, [t], rfl, ?_⟩
      simp [hi]
  | a :: rest =>
    rw [Queue.cycle, Queue.get_loop_all_cons q a rest hm hi] at hc
    simp only [Queue.historyPut, hh, Except.ok.injEq] at hc
    subst hc
    refine ⟨hm, h ++ [a], rfl, ?_⟩
    rw [← List.append_assoc]
    exact List.perm_append_singleton a (rest ++ h)

/-- Iterating autoplay cycles in `loop_all` mode permutes the combined
`items ++ history` contents. -/
theorem Queue.cycles_loop_all_perm :
    ∀ (n : Nat) (q q' : Queue), q.mode = QueueMode.loop_all →
      q.history.isSome → Queue.cycles n q = Except.ok q' →
      (q'.items ++ q'.histList).Perm (q.items ++ q.histList)
  | 0, q, q', _, _, hc => by
    simp [Queue.cycles] at hc
    subst hc
    exact List.Perm.refl _
  | n + 1, q, q', hm, hh, hc => by
    rw [Queue.cycles] at hc
    match hstep : q.cycle with
    | Except.error e => rw [hstep] at hc; exact absurd hc (by simp)
    | Except.ok q₁ =>
      rw [hstep] at hc
      obtain ⟨h, hhist⟩ := Option.isSome_iff_exists.mp hh
      obtain ⟨hm₁, h₁, hh₁, hperm₁⟩ := Queue.cycle_loop_all_perm q h q₁ hm hhist hstep
      have ih := Queue.cycles_loop_all_perm n q₁ q' hm₁ (by simp [hh₁]) hc
      have : q₁.histList = h₁ := by simp [Queue.histList, hh₁]
      have hq : q.histList = h := by simp [Queue.histList, hhist]
      rw [this] at ih
      rw [hq]
      exact ih.trans hperm₁

theorem checkAtomic_of_mem_invalid (l : List QItem) (hl : QItem.invalid ∈ l) :
    checkAtomic l = Except.error QueueError.typeError := by
  induction l with
  | nil => cases hl
  | cons x xs ih =>
    cases x with
    | invalid => rfl
    | track t =>
      rw [List.mem_cons] at hl
      rcases hl with h | h
      · exact absurd h (by simp)
      · simpa [checkAtomic, checkCompatibility] using ih h

theorem removeLoop_count_le_one (copy : List Playable) (item : Playable) (c : Int)
    (hc : c ≤ 1) :
    ∀ items : List Playable,
      removeLoop copy items item (some c) 0 = removeLoop copy items item (some 1) 0 := by
  induction copy with
  | nil => intro items; rfl
  | cons t rest ih =>
    intro items
    by_cases hp : t.pyEq item = true
    · have h1 : ((0 + 1 : Nat) : Int) ≥ c := by omega
      have h2 : ((0 + 1 : Nat) : Int) ≥ (1 : Int) := by omega
      simp [removeLoop, hp, h1, h2]
      intro hlt
      exact absurd hlt (by omega)
    · simp only [removeLoop, Bool.not_eq_true] at hp ⊢
      rw [hp]
      simp only [Bool.false_eq_true, if_false]
      exact ih items

theorem removeLoop_no_match (copy : List Playable) (item : Playable)
    (count : Option Int) (d : Nat)
    (h : ∀ t ∈ copy, t.pyEq item = false) :
    ∀ items : List Playable, removeLoop copy items item count d = (items, d) := by
  induction copy with
  | nil => intro items; rfl
  | cons t rest ih =>
    intro items
    have ht : t.pyEq item = false := h t (List.mem_cons_self t rest)
    simp only [removeLoop, ht, Bool.false_eq_true, if_false]
    exact ih (fun x hx => h x (List.mem_cons_of_mem t hx)) items

/-- Single-call facts about `calculate`: the returned delay never goes
below the stored last wait (hence delays are non-decreasing while an
episode stays open), lies in `[0, maximum_time]`, the invariant is
preserved, the configuration fields never change, and while the episode
stays open `_last_wait` records the returned delay. -/
theorem Backoff.calculate_props (b : Backoff) (d : ℚ) (hInv : b.Inv) :
    b.lastWait ≤ (b.calculate d).1 ∧
    0 ≤ (b.calculate d).1 ∧
    (b.calculate d).1 ≤ b.maximumTime ∧
    (b.calculate d).2.Inv ∧
    ((b.calculate d).2.retries = b.retries + 1 → (b.calculate d).2.lastWait = (b.calculate d).1) ∧
    (b.calculate d).2.base = b.base ∧
    (b.calculate d).2.maximumTime = b.maximumTime ∧
    (b.calculate d).2.maximumTries = b.maximumTries := by
  obtain ⟨base, M, mt, k, L⟩ := b
  obtain ⟨h0, hM, hk⟩ := hInv
  simp only at h0 hM hk
  cases mt with
  | none =>
    simp only [Backoff.calculate, Backoff.applyMaxTries, Backoff.Inv, gt_iff_lt]
    split_ifs with hf hclamp hclamp <;>
      refine ⟨?_, ?_, ?_, ⟨?_, ?_, ?_⟩, ?_, rfl, rfl, rfl⟩ <;>
      simp_all <;> first
        | omega
        | linarith
  | some m =>
    simp only [Backoff.calculate, Backoff.applyMaxTries, Backoff.Inv, gt_iff_lt]
    split_ifs with hf hclamp hm hm hclamp hm hm <;>
      refine ⟨?_, ?_, ?_, ⟨?_, ?_, ?_⟩, ?_, rfl, rfl, rfl⟩ <;>
      simp_all <;> first
        | omega
        | linarith

/-- Sequence-level facts about `calculate`: starting from any state
satisfying the invariant, every returned delay of a run lies in
`[0, maximum_time]`, consecutive delays are non-decreasing while the
episode stays open, and the first delay is at least the stored last
wait. -/
theorem Backoff.run_bounds :
    ∀ (ds : List ℚ) (b : Backoff), b.Inv → b.drawsValid ds →
      (∀ p ∈ b.run ds, 0 ≤ p.2.1 ∧ p.2.1 ≤ b.maximumTime) ∧
      List.Chain' (fun x y : Nat × ℚ × Bool => x.2.2 = true → x.2.1 ≤ y.2.1) (b.run ds) ∧
      (∀ p ∈ (b.run ds).head?, b.lastWait ≤ p.2.1)
  | [], b, _, _ => by simp [Backoff.run]
  | d :: ds, b, hInv, hv => by
    rw [Backoff.drawsValid] at hv
    obtain ⟨hmon, h0, hMb, hInv', hlast, hbase, hMeq, hmt⟩ := Backoff.calculate_props b d hInv
    have ih := Backoff.run_bounds ds (b.calculate d).2 hInv' hv.2
    simp only [Backoff.run]
    refine ⟨?_, ?_, ?_⟩
    · intro p hp
      rcases List.mem_cons.mp hp with h | h
      · subst h
        exact ⟨h0, hMb⟩
      · have hb := ih.1 p h
        rwa [hMeq] at hb
    · rw [List.chain'_cons']
      refine ⟨?_, ih.2.1⟩
      intro y hy hflag
      have hret : (b.calculate d).2.retries = b.retries + 1 := by
        simpa using hflag
      have hl := hlast hret
      have hhead := ih.2.2 y hy
      rw [hl] at hhead
      exact hhead
    · intro p hp
      simp only [List.head?_cons, Option.mem_def, Option.some.injEq] at hp
      subst hp
      exact hmon

/-- C3 (amended): for every configuration, every sequence of calls and
every sequence of in-range random draws, each returned delay lies within
`[0, max((base * 2) * min(attempt², ceiling), ceiling)]` where `attempt`
is the attempt counter at that call, and within one backoff episode (no
clamp/max-tries reset in between) the returned delays are non-decreasing.
(The claim's tighter bound `(base * 2) * min(attempt², ceiling)` fails:
the forced doubling of the previous delay can exceed it — see the
counterexample.) -/
theorem backoff_delay_bounds (base M : ℚ) (mt : Option Nat) (ds : List ℚ)
    (hM : 0 ≤ M) (hvalid : (Backoff.fresh base M mt).drawsValid ds) :
    (∀ p ∈ (Backoff.fresh base M mt).run ds,
        0 ≤ p.2.1 ∧ p.2.1 ≤ max ((base * 2) * min ((p.1 : ℚ) ^ 2) M) M) ∧
    List.Chain' (fun x y : Nat × ℚ × Bool => x.2.2 = true → x.2.1 ≤ y.2.1)
      ((Backoff.fresh base M mt).run ds) := by
  have hInv : (Backoff.fresh base M mt).Inv := ⟨le_refl 0, hM, le_refl 1⟩
  obtain ⟨hb, hchain, _⟩ := Backoff.run_bounds ds (Backoff.fresh base M mt) hInv hvalid
  refine ⟨?_, hchain⟩
  intro p hp
  obtain ⟨h0, hM'⟩ := hb p hp
  exact ⟨h0, le_max_of_le_right hM'⟩

/-- C3 counterexample: with `base = 1`, `maximum_time = 1000` and
unbounded tries, the in-range draws 2, 8, 17, 0 make the fourth call
return `2 * 17 = 34` (forced doubling of the previous delay), which
exceeds the claimed bound `2·base·min(attempt², ceiling) = 2·min(16,1000)
= 32` at attempt 4. -/
theorem backoff_bound_counterexample :
    (Backoff.fresh 1 1000 none).drawsValid [2, 8, 17, 0] ∧
    (Backoff.fresh 1 1000 none).run [2, 8, 17, 0] =
      [(1, 2, true), (2, 8, true), (3, 17, true), (4, 34, true)] ∧
    ¬((34 : ℚ) ≤ (1 * 2) * min ((4 : ℚ) ^ 2) 1000) := by
  refine ⟨?_, ?_, by norm_num⟩
  · simp only [Backoff.drawsValid, Backoff.fresh, Backoff.calculate, Backoff.applyMaxTries,
      Backoff.exponent]
    norm_num
  · simp only [Backoff.run, Backoff.fresh, Backoff.calculate, Backoff.applyMaxTries]
    norm_num

theorem backoff_delay_bounds_witness :
    (∀ p ∈ (Backoff.fresh 1 30 (some 5)).run [2, 0],
        0 ≤ p.2.1 ∧ p.2.1 ≤ max ((1 * 2) * min ((p.1 : ℚ) ^ 2) 30) 30) ∧
    List.Chain' (fun x y : Nat × ℚ × Bool => x.2.2 = true → x.2.1 ≤ y.2.1)
      ((Backoff.fresh 1 30 (some 5)).run [2, 0]) :=
  backoff_delay_bounds 1 30 (some 5) [2, 0] (by norm_num)
    (by
      simp only [Backoff.drawsValid, Backoff.fresh, Backoff.calculate, Backoff.applyMaxTries,
        Backoff.exponent]
      norm_num)

/-- C1 (amended): when the remote player-update request of `play()` fails
with a request-level (`LavalinkException`) error, `play()` re-raises and
the resulting local state restores `previous` and `volume` (and leaves
`paused` and the queue contents untouched), but it does *not* restore
every staged field to its prior value: `current` and `original` are
cleared to `None` (not restored), the queue's `loaded` slot is set to the
*prior previous track* (not to its own prior value), and a staged
`filters` override is kept. -/
theorem play_failed_update_state (p : PlayerState) (a : PlayArgs) (status : Int) :
    Player.play p a (some status) =
      (Except.error (PlayError.lavalink status),
        { p with current := none, original := none,
                 queue := { p.queue with loaded := p.previous },
                 filters := a.filters.getD p.filters }) := by
  obtain ⟨c, o, pr, v, ps, f, q⟩ := p
  obtain ⟨tr, rep, vol?, pau?, ah, fil?⟩ := a
  simp only [Player.play]
  cases vol? <;> cases fil? <;> split_ifs <;> rfl

/-- With an empty reinforcement pass, every finally selected seed
identifier satisfies any property holding on the identifiers of the seed
list handed to the source partitions (the populate track, when given,
followed by the shuffled weighted seeds). -/
theorem selectSeeds_ids_of_empty_reinforce (r : RecoState) (shuffled : List Playable)
    (pt : Option Playable) (P : String → Prop)
    (hri : r.reinforceInput = [])
    (hP : ∀ t ∈ seedsWithPopulate shuffled pt, P t.identifier) :
    ∀ sel, selectSeeds r shuffled pt = Except.ok sel →
      (∀ s ∈ sel.spotifySeeds, P s) ∧ (∀ s ∈ sel.ytmSeed, P s) := by
  intro sel hsel
  have hsp : ∀ s ∈ ((seedsWithPopulate shuffled pt).filter
      fun t => t.source == "spotify").map Playable.identifier, P s := by
    intro s hs
    rw [List.mem_map] at hs
    obtain ⟨t, ht, rfl⟩ := hs
    exact hP t (List.mem_of_mem_filter ht)
  have hyt : ∀ s ∈ ((seedsWithPopulate shuffled pt).filter
      fun t => t.source == "youtube").map Playable.identifier, P s := by
    intro s hs
    rw [List.mem_map] at hs
    obtain ⟨t, ht, rfl⟩ := hs
    exact hP t (List.mem_of_mem_filter ht)
  rw [selectSeeds, hri] at hsel
  simp only [reinforce] at hsel
  cases hyl : ((seedsWithPopulate shuffled pt).filter
      fun t => t.source == "youtube").map Playable.identifier with
  | nil =>
    rw [hyl] at hsel
    simp only [Except.ok.injEq] at hsel
    subst hsel
    refine ⟨?_, by simp⟩
    intro s hs
    by_cases hempty : (((seedsWithPopulate shuffled pt).filter
        fun t => t.source == "spotify").map Playable.identifier).isEmpty
    · simp [hempty] at hs
    · simp only [hempty, Bool.false_eq_true, if_false] at hs
      exact hsp s (List.mem_of_mem_take hs)
  | cons y ys =>
    rw [hyl] at hsel
    simp only [Except.ok.injEq] at hsel
    subst hsel
    constructor
    · intro s hs
      by_cases hempty : (((seedsWithPopulate shuffled pt).filter
          fun t => t.source == "spotify").map Playable.identifier).isEmpty
      · simp [hempty] at hs
      · simp only [hempty, Bool.false_eq_true, if_false] at hs
        exact hsp s (List.mem_of_mem_take hs)
    · intro s hs
      simp only [Option.mem_def, Option.some.injEq] at hs
      subst hs
      exact hyt y (hyl ▸ List.mem_cons_self y ys)

/-- C8 (amended): a seed identifier present in the bounded seed-history is
never selected into the *weighted seed set* (recent history, upcoming
auto-queue entries, current/previous track) — under any shuffle.  When the
recent-history reinforcement step has nothing to visit: on a non-populate
run every identifier finally selected for the recommendation queries
avoids the seed-history, and on a populate run every finally selected
identifier avoids the seed-history except possibly the populate seed
itself, which player.py inserts with no seed-history check.  (The
reinforcement step likewise does not consult the seed-history and can
re-select a present identifier — see the counterexample.) -/
theorem reco_seed_exclusion (r : RecoState) (l : List Playable)
    (hperm : l.Perm r.seeds) :
    (∀ t ∈ l, t.identifier ∉ r.previousSeeds) ∧
    (r.reinforceInput = [] →
      ∀ sel, selectSeeds r l none = Except.ok sel →
        (∀ s ∈ sel.spotifySeeds, s ∉ r.previousSeeds) ∧
        (∀ s ∈ sel.ytmSeed, s ∉ r.previousSeeds)) ∧
    (r.reinforceInput = [] →
      ∀ p sel, selectSeeds r l (some p) = Except.ok sel →
        (∀ s ∈ sel.spotifySeeds, s ∉ r.previousSeeds ∨ s = p.identifier) ∧
        (∀ s ∈ sel.ytmSeed, s ∉ r.previousSeeds ∨ s = p.identifier)) := by
  have ha : ∀ t ∈ l, t.identifier ∉ r.previousSeeds := by
    intro t ht
    have hmem : t ∈ r.seeds := hperm.mem_iff.mp ht
    rw [RecoState.seeds, List.mem_filterMap] at hmem
    obtain ⟨ot, _, hot⟩ := hmem
    match ot with
    | none => simp at hot
    | some t' =>
      change (if t'.identifier ∈ r.previousSeeds then none else some t') = some t at hot
      by_cases hc : t'.identifier ∈ r.previousSeeds
      · rw [if_pos hc] at hot
        cases hot
      · rw [if_neg hc] at hot
        injection hot with h
        subst h
        exact hc
  refine ⟨ha, ?_, ?_⟩
  · intro hri
    exact selectSeeds_ids_of_empty_reinforce r l none (fun s => s ∉ r.previousSeeds) hri ha
  · intro hri p
    refine selectSeeds_ids_of_empty_reinforce r l (some p)
      (fun s => s ∉ r.previousSeeds ∨ s = p.identifier) hri ?_
    intro t ht
    have ht' : t ∈ p :: l := ht
    rcases List.mem_cons.mp ht' with h | h
    · right
      rw [h]
    · left
      exact ha t h

/-- C8 counterexample: with `"idC"` already in the bounded seed-history,
the weighted seed set is empty (the exclusion works there), yet the
recent-history reinforcement step re-selects `"idC"` as a spotify seed of
the recommendation query. -/
theorem reco_seed_reselection_counterexample :
    recoSample.seeds = [] ∧
    selectSeeds recoSample [] none =
      Except.ok { spotifySeeds := ["idC"], ytmSeed := none,
                  newPreviousSeeds := ["idC", "idC"] } ∧
    "idC" ∈ recoSample.previousSeeds := by
  refine ⟨by decide, by rfl, by decide⟩

theorem reco_seed_exclusion_witness :
    (∀ t ∈ [trackA], t.identifier ∉ recoSample2.previousSeeds) ∧
    (∀ s ∈ (RecoSelection.mk [] (some "idA") ["idB", "idA"]).spotifySeeds,
      s ∉ recoSample2.previousSeeds) ∧
    (∀ s ∈ (RecoSelection.mk [] (some "idA") ["idB", "idA"]).ytmSeed,
      s ∉ recoSample2.previousSeeds) ∧
    (∀ s ∈ (RecoSelection.mk [] (some "idB") ["idB", "idB"]).ytmSeed,
      s ∉ recoSample2.previousSeeds ∨ s = trackB.identifier) :=
  ⟨(reco_seed_exclusion recoSample2 [trackA] (by decide)).1,
   ((reco_seed_exclusion recoSample2 [trackA] (by decide)).2.1 (by decide)
      (RecoSelection.mk [] (some "idA") ["idB", "idA"]) (by rfl)).1,
   ((reco_seed_exclusion recoSample2 [trackA] (by decide)).2.1 (by decide)
      (RecoSelection.mk [] (some "idA") ["idB", "idA"]) (by rfl)).2,
   ((reco_seed_exclusion recoSample2 [trackA] (by decide)).2.2 (by decide)
      trackB (RecoSelection.mk [] (some "idB") ["idB", "idB"]) (by rfl)).2⟩

/-- C4: for every queue and every collection holding at least one
non-`Playable` element, `put(collection, atomic=True)` raises `TypeError`
with nothing appended (the type check runs before any mutation, so the
queue is unchanged — all-or-nothing), while `put(collection, atomic=False)`
appends exactly the valid elements in order and returns the count actually
appended. -/
theorem queue_put_atomic_all_or_nothing (q : Queue) (l : List QItem)
    (hl : QItem.invalid ∈ l) :
    q.put (PutItem.collection l) true = Except.error QueueError.typeError ∧
    q.put (PutItem.collection l) false =
      Except.ok ((passingItems l).length, { q with items := q.items ++ passingItems l }) := by
  constructor
  · simp [Queue.put, checkAtomic_of_mem_invalid l hl]
  · rfl

theorem queue_put_atomic_all_or_nothing_witness :
    (Queue.mk [] (some []) QueueMode.normal none).put
        (PutItem.collection [QItem.track trackA, QItem.track trackB, QItem.invalid]) true =
      Except.error QueueError.typeError ∧
    (Queue.mk [] (some []) QueueMode.normal none).put
        (PutItem.collection [QItem.track trackA, QItem.track trackB, QItem.invalid]) false =
      Except.ok (2, Queue.mk [trackA, trackB] (some []) QueueMode.normal none) :=
  queue_put_atomic_all_or_nothing (Queue.mk [] (some []) QueueMode.normal none)
    [QItem.track trackA, QItem.track trackB, QItem.invalid] (by simp)

/-- C5: under `loop_all`, a `get()` on an exhausted queue refills `items`
from the history and clears the history before popping the head, and any
number of `get()`/history-append cycles permutes (hence conserves) the
combined multiset of tracks in `items ∪ history`. -/
theorem queue_loop_all_conservation (q : Queue) (h : List Playable)
    (hm : q.mode = QueueMode.loop_all) (hh : q.history = some h) :
    (∀ t ts, q.items = [] → h = t :: ts →
        q.get = Except.ok (t, { q with items := ts, history := some [], loaded := some t })) ∧
    (∀ n q', Queue.cycles n q = Except.ok q' →
        (q'.items ++ q'.histList).Perm (q.items ++ h)) := by
  constructor
  · intro t ts hi hht
    subst hht
    exact Queue.get_loop_all_refill q t ts hm hh hi
  · intro n q' hc
    have hp := Queue.cycles_loop_all_perm n q q' hm (by simp [hh]) hc
    simpa [Queue.histList, hh] using hp

theorem queue_loop_all_conservation_witness :
    ((Queue.mk [] (some [trackA, trackB]) QueueMode.loop_all none).get =
      Except.ok (trackA, Queue.mk [trackB] (some []) QueueMode.loop_all (some trackA))) ∧
    (((Queue.mk [] (some [trackA, trackB]) QueueMode.loop_all (some trackB)).items ++
        (Queue.mk [] (some [trackA, trackB]) QueueMode.loop_all (some trackB)).histList).Perm
      ((Queue.mk [] (some [trackA, trackB]) QueueMode.loop_all none).items ++ [trackA, trackB])) :=
  ⟨(queue_loop_all_conservation _ [trackA, trackB] rfl rfl).1 trackA [trackB] rfl rfl,
   (queue_loop_all_conservation _ [trackA, trackB] rfl rfl).2 2
     (Queue.mk [] (some [trackA, trackB]) QueueMode.loop_all (some trackB)) rfl⟩

/-- C6: in `loop` mode with a track held in the loaded slot, every `get()`
returns that same track and leaves the whole queue state (items, history,
loaded slot) unchanged. -/
theorem queue_loop_get_idempotent (q : Queue) (t : Playable)
    (hm : q.mode = QueueMode.loop) (hl : q.loaded = some t) :
    q.get = Except.ok (t, q) :=
  Queue.get_loop_loaded q t hm hl

theorem queue_loop_get_idempotent_witness :
    (Queue.mk [trackA] (some []) QueueMode.loop (some trackB)).get =
      Except.ok (trackB, Queue.mk [trackA] (some []) QueueMode.loop (some trackB)) :=
  queue_loop_get_idempotent (Queue.mk [trackA] (some []) QueueMode.loop (some trackB))
    trackB rfl rfl

/-- C9: in `loop` mode with an empty loaded slot, `get()` pops the head of
`items` (shrinking the queue) and stores it as the loaded track, and raises
`QueueEmpty` when `items` is empty. -/
theorem queue_loop_unloaded_get_pops (q : Queue)
    (hm : q.mode = QueueMode.loop) (hl : q.loaded = none) :
    q.get = match q.items with
      | [] => Except.error QueueError.queueEmpty
      | t :: rest => Except.ok (t, { q with items := rest, loaded := some t }) :=
  Queue.get_not_loop_loaded q (by simp [hl]) (by simp [hm])

theorem queue_loop_unloaded_get_pops_witness :
    (Queue.mk [trackA, trackB] (some []) QueueMode.loop none).get =
      Except.ok (trackA, Queue.mk [trackB] (some []) QueueMode.loop (some trackA)) ∧
    (Queue.mk [] (some []) QueueMode.loop none).get =
      Except.error QueueError.queueEmpty :=
  ⟨queue_loop_unloaded_get_pops (Queue.mk [trackA, trackB] (some []) QueueMode.loop none) rfl rfl,
   queue_loop_unloaded_get_pops (Queue.mk [] (some []) QueueMode.loop none) rfl rfl⟩

/-- C10: `Queue.remove` with `count ≤ 0` behaves exactly like `count = 1`
(it removes the first matching occurrence, because the loop breaks as soon
as `deleted_count >= count`), and with no matching occurrence it removes
nothing and returns `0` without raising, for any count. -/
theorem queue_remove_nonpositive_count (q : Queue) (item : Playable) :
    (∀ c : Int, c ≤ 0 → q.remove item (some c) = q.remove item (some 1)) ∧
    (∀ count : Option Int, (∀ t ∈ q.items, t.pyEq item = false) →
      q.remove item count = (q, 0)) := by
  constructor
  · intro c hc
    unfold Queue.remove
    rw [removeLoop_count_le_one q.items item c (by omega) q.items]
  · intro count h
    unfold Queue.remove
    rw [removeLoop_no_match q.items item count 0 h q.items]

/-- C1 counterexample: on a failed update, `current` is *not* left exactly
as it was before the call (it becomes `None` instead of the prior playing
track), the staged `filters` override is *not* rolled back, and the
queue's `loaded` slot is *not* restored to its prior value (it becomes the
prior `previous` track). -/
theorem play_rollback_counterexample :
    (Player.play samplePlayer samplePlayArgs (some 500)).2.current ≠ samplePlayer.current ∧
    (Player.play samplePlayer samplePlayArgs (some 500)).2.filters ≠ samplePlayer.filters ∧
    (Player.play samplePlayer samplePlayArgs (some 500)).2.queue.loaded ≠
      samplePlayer.queue.loaded := by
  refine ⟨?_, ?_, ?_⟩ <;> decide

theorem queue_remove_nonpositive_count_witness :
    ((Queue.mk [trackA, trackB] (some []) QueueMode.normal none).remove trackA (some (-3)) =
      (Queue.mk [trackA, trackB] (some []) QueueMode.normal none).remove trackA (some 1)) ∧
    ((Queue.mk [trackA, trackB] (some []) QueueMode.normal none).remove trackC (some 5) =
      (Queue.mk [trackA, trackB] (some []) QueueMode.normal none, 0)) :=
  ⟨(queue_remove_nonpositive_count (Queue.mk [trackA, trackB] (some []) QueueMode.normal none)
      trackA).1 (-3) (by norm_num),
   (queue_remove_nonpositive_count (Queue.mk [trackA, trackB] (some []) QueueMode.normal none)
      trackC).2 (some 5) (by decide)⟩

/-- C2: the session protocol's "ready" branch stores the issued session id
and transitions the node to `CONNECTED`, but the `Backoff` class defines
no `reset()` attribute, so the prescribed `self.backoff.reset()` call
raises `AttributeError` on every successful handshake instead of
restoring attempt = 1 and last delay = 0. -/
theorem websocket_ready_reset_attribute_error (n : NodeConn) (sid : String) :
    (handleReady n sid).1 = Except.error WsError.attributeError ∧
    (handleReady n sid).2.sessionId = some sid ∧
    (handleReady n sid).2.status = NodeStatus.connected ∧
    "reset" ∉ backoffAttributes := by
  refine ⟨rfl, rfl, rfl, by decide⟩

/-- C7 (amended): with the cache enabled, a truthy cached entry is
returned as-is and nothing is stored; on a cache miss (no entry, or a
falsy one — an empty list or an empty playlist), only the single-track
branch of `Pool.fetch_tracks` excludes live tracks from the cache (a
stream track is not stored, a non-stream track is), while the `search`
and `playlist` branches store their results unconditionally, stream
entries included. -/
theorem fetch_tracks_cache_policy (lookup : Option LoadResult) (t : Playable)
    (ts : List Playable) :
    (∀ c, lookup = some c → c.truthy = true →
      ∀ resp, Pool.fetchTracks (some lookup) resp = Except.ok (c, none)) ∧
    ((∀ c, lookup = some c → c.truthy = false) →
      Pool.fetchTracks (some lookup) (LoadedResponse.track t) =
        Except.ok (LoadResult.tracks [t],
          if t.isStream then none else some (LoadResult.tracks [t])) ∧
      Pool.fetchTracks (some lookup) (LoadedResponse.search ts) =
        Except.ok (LoadResult.tracks ts, some (LoadResult.tracks ts)) ∧
      Pool.fetchTracks (some lookup) (LoadedResponse.playlist ts) =
        Except.ok (LoadResult.playlist ts, some (LoadResult.playlist ts))) := by
  constructor
  · intro c hc htr resp
    subst hc
    simp [Pool.fetchTracks, htr]
  · intro hmiss
    match lookup with
    | none =>
        refine ⟨?_, rfl, rfl⟩
        simp only [Pool.fetchTracks, fetchFresh, Bool.true_and]
        cases hs : t.isStream <;> simp
    | some c =>
        have hc := hmiss c rfl
        refine ⟨?_, ?_, ?_⟩ <;>
          simp only [Pool.fetchTracks, hc, Bool.false_eq_true, if_false, fetchFresh,
            Bool.true_and] <;> try rfl
        cases hs : t.isStream <;> simp

theorem fetch_tracks_cache_policy_witness :
    Pool.fetchTracks (some (some (LoadResult.tracks [trackA]))) LoadedResponse.empty =
      Except.ok (LoadResult.tracks [trackA], none) ∧
    Pool.fetchTracks (some (some (LoadResult.playlist []))) (LoadedResponse.track streamTrack) =
      Except.ok (LoadResult.tracks [streamTrack], none) ∧
    Pool.fetchTracks (some (some (LoadResult.playlist []))) (LoadedResponse.search [trackA]) =
      Except.ok (LoadResult.tracks [trackA], some (LoadResult.tracks [trackA])) :=
  ⟨(fetch_tracks_cache_policy (some (LoadResult.tracks [trackA])) trackA []).1
      (LoadResult.tracks [trackA]) rfl (by decide) LoadedResponse.empty,
   ((fetch_tracks_cache_policy (some (LoadResult.playlist [])) streamTrack [trackA]).2
      (by intro c hc; cases hc; decide)).1,
   ((fetch_tracks_cache_policy (some (LoadResult.playlist [])) streamTrack [trackA]).2
      (by intro c hc; cases hc; decide)).2.1⟩

/-- C7 counterexample: a `search` response consisting of a live-stream
track is stored into the cache by `Pool.fetch_tracks`. -/
theorem fetch_tracks_stream_cached_counterexample :
    Pool.fetchTracks (some none) (LoadedResponse.search [streamTrack]) =
      Except.ok (LoadResult.tracks [streamTrack], some (LoadResult.tracks [streamTrack])) ∧
    streamTrack.isStream = true :=
  ⟨rfl, rfl⟩

end Wavelink

